import Mathlib

/-!
Verification of the enterprise RAG system core against its specification.
Shallow embedding of the Python sources under `src/`: pure functions become
Lean functions, machine behavior of external stores is passed in as explicit
oracles, and fallible operations return `Except`/`Option`.
Rational numbers stand in for Python floats: every constant in the scoring
code is a decimal literal and the arithmetic is exact on the inputs used.
-/

/- Batteries marks the rational arithmetic irreducible; concrete score
   computations in the witnesses need it evaluable. -/
attribute [local semireducible] Rat.mul Rat.inv Rat.add Rat.sub Rat.ofScientific

namespace Validator

/-- A Python `\w` word character, restricted to ASCII: letter, digit or
    underscore (the specification's inputs are ASCII). -/
def isWordChar (c : Char) : Bool := c.isAlphanum || c = '_'

/-- Python `str.lower` on ASCII input, written over the character list so the
    kernel can evaluate it (core `String.toLower` is not kernel-reducible). -/
def pyLower (s : String) : String := String.mk (s.data.map Char.toLower)

/-- Maximal runs of word characters, as `re.findall` with the word pattern
    produces them; `cur` holds the current run reversed. -/
def wordRuns : List Char → List Char → List String
  | [], cur => if cur.isEmpty then [] else [String.mk cur.reverse]
  | c :: rest, cur =>
    if isWordChar c then wordRuns rest (c :: cur)
    else if cur.isEmpty then wordRuns rest []
    else String.mk cur.reverse :: wordRuns rest []

/-- `re.findall` of the word pattern over a string. -/
def wordTokens (s : String) : List String := wordRuns s.data []

/-- Lower-cased word-token set of a string, as built inside
    `ResponseValidator._check_grounding`. -/
def tokenSet (s : String) : Finset String := (wordTokens (pyLower s)).toFinset

/-- `ResponseValidator._check_grounding`: context documents are represented by
    their `page_content` strings. The fold mirrors the Python loop that
    accumulates `(overlap_count, total_terms)`. -/
def check_grounding (answer : String) (context_docs : List String) : ℚ :=
  if context_docs.isEmpty then 0
  else
    let answer_lower := pyLower answer
    let st := context_docs.foldl
      (fun (acc : Nat × Nat) doc =>
        let answer_words := (wordTokens answer_lower).toFinset
        let context_words := (wordTokens (pyLower doc)).toFinset
        (acc.1 + (answer_words ∩ context_words).card, acc.2 + answer_words.card))
      (0, 0)
    if st.2 = 0 then 0 else min ((st.1 : ℚ) / (st.2 : ℚ)) 1

/-- Substring test on character lists (Python `needle in hay`). -/
def containsSub : List Char → List Char → Bool
  | [], needle => needle.isEmpty
  | c :: t, needle => needle.isPrefixOf (c :: t) || containsSub t needle

/-- Python `needle in hay` on strings. -/
def strContains (hay needle : String) : Bool := containsSub hay.data needle.data

def uncertainty_phrases : List String :=
  ["i don't have enough information", "cannot find",
   "not available in the context", "not mentioned in the documents"]

/-- `ResponseValidator._contains_uncertainity`. -/
def contains_uncertainity (answer : String) : Bool :=
  uncertainty_phrases.any (fun phrase => strContains (pyLower answer) phrase)

def min_answer_length : Nat := 10
def max_answer_length : Nat := 5000

/-- Python `str.split()`: count of maximal non-whitespace runs. -/
def whitespaceRuns : List Char → List Char → List String
  | [], cur => if cur.isEmpty then [] else [String.mk cur.reverse]
  | c :: rest, cur =>
    if c.isWhitespace then
      if cur.isEmpty then whitespaceRuns rest []
      else String.mk cur.reverse :: whitespaceRuns rest []
    else whitespaceRuns rest (c :: cur)

/-- `len(answer.split())`. -/
def wordCount (s : String) : Nat := (whitespaceRuns s.data []).length

/-- `ResponseValidator._calculate_quality_score`. -/
def calculate_quality_score (answer : String) (grounded_score : ℚ) : ℚ :=
  let score := grounded_score
  let word_count := wordCount answer
  let score := if 50 ≤ word_count ∧ word_count ≤ 500 then score + 1/5 else score
  let score := if word_count < 20 ∨ word_count > 1000 then score - 3/10 else score
  max 0 (min 1 score)

/-- The generated response map; only the `"answer"` key is read by the
    validator, so the map is represented by that optional field. -/
structure Response where
  answer? : Option String

/-- `response.get("answer", "")`. -/
def responseAnswer (r : Response) : String := r.answer?.getD ""

structure ValidationResult where
  is_valid : Bool
  warnings : List String
  grounding_score : ℚ
  quality_score : ℚ
deriving Repr, DecidableEq

/-- `ResponseValidator.validate`, translated statement by statement. -/
def validate (response : Response) (context_docs : List String) : ValidationResult :=
  let answer := responseAnswer response
  let r0 : ValidationResult := ⟨true, [], 0, 0⟩
  let r1 :=
    if answer.length < min_answer_length then
      { r0 with warnings := r0.warnings ++ ["Answer too short"],
                quality_score := r0.quality_score - 1/5 }
    else r0
  let r2 :=
    if answer.length > max_answer_length then
      { r1 with warnings := r1.warnings ++ ["Answer too long"],
                quality_score := r1.quality_score - 1/10 }
    else r1
  let grounding_score := check_grounding answer context_docs
  let r3 := { r2 with grounding_score := grounding_score }
  let r4 :=
    if grounding_score < 1/2 then
      { r3 with warnings := r3.warnings ++ ["Low grounding score"] }
    else r3
  let r5 :=
    if contains_uncertainity answer then
      { r4 with warnings := r4.warnings ++ ["Response indicates uncertainity"] }
    else r4
  { r5 with quality_score := calculate_quality_score answer grounding_score }

/-- The grounding-score formula as claim C1 words it: per-chunk overlap sum,
    total equal to the answer-token-set size times the chunk count, zero on
    empty context or zero total. -/
def groundingSpec (answer : String) (docs : List String) : ℚ :=
  let A := tokenSet answer
  let overlap : Nat := (docs.map (fun d => (A ∩ tokenSet d).card)).sum
  let total : Nat := docs.length * A.card
  if docs.isEmpty ∨ total = 0 then 0 else min ((overlap : ℚ) / (total : ℚ)) 1

/-- The quality-score formula as claim C3 words it: the grounding score plus
    the mid-length bonus minus the short/long penalty, clamped to `[0, 1]`. -/
def qualitySpec (answer : String) (g : ℚ) : ℚ :=
  let wc := wordCount answer
  let bonus : ℚ := if 50 ≤ wc ∧ wc ≤ 500 then 1/5 else 0
  let penalty : ℚ := if wc < 20 ∨ wc > 1000 then 3/10 else 0
  max 0 (min 1 (g + bonus - penalty))

end Validator

namespace DocProc

/-- Metadata values occurring in chunk metadata: strings and integers. -/
inductive MVal where
  | s (v : String)
  | n (v : Nat)
deriving DecidableEq, Repr

/-- A Python dict, as an association list in which a later binding for a key
    shadows an earlier one (`dict.update` appends the new bindings). -/
abbrev Metadata := List (String × MVal)

/-- Dict lookup: the last binding for the key wins. -/
def mlookup (m : Metadata) (k : String) : Option MVal :=
  (m.reverse.find? (fun p => p.1 == k)).map Prod.snd

/-- A langchain `Document`: page content plus metadata. -/
structure Chunk where
  page_content : String
  metadata : Metadata
deriving DecidableEq, Repr

/-- The facts `_validate_file` and `_calculate_file_hash` read from the
    filesystem about one path. -/
structure FileInfo where
  path : String
  name : String
  suffix : String
  on_disk : Bool
  size_bytes : Nat
  bytes : List Nat
deriving Repr

/-- `Settings.SUPPORTED_FORMATS` from `core/config.py`. -/
def SUPPORTED_FORMATS : List String := [".pdf", ".docx", ".txt", ".md", ".pptx"]

/-- `Settings.MAX_DOCUMENT_SIZE_MB`. -/
def MAX_DOCUMENT_SIZE_MB : Nat := 50

/-- The extensions mapped in `DocumentProcessor.__init__`'s loader dict. -/
def loader_suffixes : List String := [".pdf", ".docx", ".txt", ".md"]

/-- The separator list passed to the text splitter in
    `DocumentProcessor.__init__`. -/
def separators : List String := ["\n\n", "\n", ". ", " ", ""]

/-- The keyword-argument names `DocumentProcessor.__init__` passes to
    `RecursiveCharacterTextSplitter` (source lines 26-31), verbatim. -/
def splitter_init_kwargs : List String :=
  ["chunk_size", "chunnk_overlap", "length_function", "separators"]

/-- Modelled from the spec: the configuration parameters the recursive
    separator splitter accepts (the splitter implementation is an external
    langchain dependency, absent from `src/`) — chunk size, chunk overlap,
    the length function, the separator list and the keep-separator flag
    (spec sections 4.1 and 6). -/
def splitter_param_names : List String :=
  ["chunk_size", "chunk_overlap", "length_function", "separators", "keep_separator"]

/-- `DocumentProcessor._validate_file`, checks in source order. -/
def validate_file (f : FileInfo) : Except String Unit :=
  if ¬ f.on_disk then Except.error ("File not Found: " ++ f.path)
  else if f.suffix ∉ SUPPORTED_FORMATS then Except.error ("Unsupported format: " ++ f.suffix)
  else if ((f.size_bytes : ℚ) / (1024 * 1024)) > (MAX_DOCUMENT_SIZE_MB : ℚ) then
    Except.error "File too large"
  else Except.ok ()

/-- The 4096-byte read loop of `_calculate_file_hash`: `cur` is the block
    being filled (reversed) and `k` its remaining capacity. -/
def blocksAux : List Nat → List Nat → Nat → List (List Nat)
  | [], cur, _ => if cur.isEmpty then [] else [cur.reverse]
  | b :: rest, cur, 0 => cur.reverse :: blocksAux rest [b] 4095
  | b :: rest, cur, k + 1 => blocksAux rest (b :: cur) k

/-- The sequence of blocks `f.read(4096)` yields until the empty block. -/
def blocks4096 (l : List Nat) : List (List Nat) := blocksAux l [] 4096

/-- hashlib's incremental digest context, modelled by the documented
    semantics of incremental hashing: `update` appends to the byte stream
    seen so far and the digest is a function of that whole stream. -/
structure HashCtx where
  buf : List Nat

def hupdate (c : HashCtx) (block : List Nat) : HashCtx := ⟨c.buf ++ block⟩

/-- `DocumentProcessor._calculate_file_hash`: fold the 4096-byte blocks
    through `update`, then take the hex digest. The digest primitive
    `sha256hex` is the external `hashlib.sha256` hex digest. -/
def calculate_file_hash (sha256hex : List Nat → String) (bytes : List Nat) : String :=
  sha256hex (((blocks4096 bytes).foldl hupdate ⟨[]⟩).buf)

/-- The dict literal built in `_enrich_metadata` for chunk `i`, before the
    caller-supplied custom metadata is merged over it. -/
def generatedMeta (f : FileInfo) (fh : String) (i total clen : Nat) (now : String) : Metadata :=
  [("source", MVal.s f.path), ("file_name", MVal.s f.name),
   ("file_type", MVal.s f.suffix), ("file_hash", MVal.s fh),
   ("chunk_index", MVal.n i), ("total_chunks", MVal.n total),
   ("processed_at", MVal.s now), ("chunk_size", MVal.n clen)]

/-- `DocumentProcessor._enrich_metadata`: each chunk's metadata is updated
    with the generated fields followed by the custom metadata (which
    therefore wins on key collision, as `**custom_metadata` comes last). -/
def enrich_metadata (sha256hex : List Nat → String) (chunks : List Chunk)
    (f : FileInfo) (custom : Metadata) (now : String) : List Chunk :=
  let file_hash := calculate_file_hash sha256hex f.bytes
  chunks.mapIdx (fun i c =>
    { c with metadata :=
        c.metadata ++ (generatedMeta f file_hash i chunks.length c.page_content.length now ++ custom) })

/-- `DocumentProcessor._load_document`: loader selected by suffix; a missing
    loader raises. The loaders themselves are external; `load` stands for a
    successful loader run. -/
def load_document (load : FileInfo → List Chunk) (f : FileInfo) : Except String (List Chunk) :=
  if f.suffix ∈ loader_suffixes then Except.ok (load f)
  else Except.error ("No loader for " ++ f.suffix)

/-- `DocumentProcessor.process_document`: validate, load, split, enrich;
    every raised error is re-raised as `DocumentProcessingError`. The
    splitter and loaders are external and passed in as total functions. -/
def process_document (load : FileInfo → List Chunk) (split : List Chunk → List Chunk)
    (sha256hex : List Nat → String) (f : FileInfo) (custom : Metadata) (now : String) :
    Except String (List Chunk) :=
  match validate_file f with
  | Except.error e => Except.error ("Document processing failed: " ++ e)
  | Except.ok _ =>
    match load_document load f with
    | Except.error e => Except.error ("Document processing failed: " ++ e)
    | Except.ok documents =>
      let chunks := split documents
      Except.ok (enrich_metadata sha256hex chunks f custom now)

/-- Whether an `Except` value is an error. -/
def isErr : Except String (List Chunk) → Bool
  | Except.error _ => true
  | Except.ok _ => false

end DocProc

namespace Enricher

open Validator

/-- `"class" in content or ...` for the code keyword set. -/
def mentions_code (content : String) : Bool :=
  ["class", "def ", "function", "import"].any (fun w => strContains content w)

/-- The academic keyword test. -/
def mentions_academic (content : String) : Bool :=
  ["abstract", "introduction", "methodology"].any (fun w => strContains content w)

/-- `"meeting" in content or "agenda" in content`. -/
def mentions_meeting (content : String) : Bool :=
  strContains content "meeting" || strContains content "agenda"

/-- `"policy" in content or "procedure" in content`. -/
def mentions_policy (content : String) : Bool :=
  strContains content "policy" || strContains content "procedure"

/-- `MetadataEnricher._identify_content_type`: first-match-wins chain over
    the lower-cased page content. -/
def identify_content_type (text : String) : String :=
  let content := pyLower text
  if mentions_code content then "code"
  else if mentions_academic content then "academic"
  else if mentions_meeting content then "meeting_notes"
  else if mentions_policy content then "policy"
  else "general"

/-- The four fixed patterns of `MetadataEnricher.__init__`, verbatim (the
    braces of the counted repetitions are written as their byte escapes). -/
def entity_patterns : List (String × String) :=
  [("email", "\\b[A-Za-z0-9._%+-]+@[A-Za-z0-9.-]+\\.[A-Z|a-z]\x7b2,\x7d\\b"),
   ("phone", "\\b\\d\x7b3\x7d[-.]?\\d\x7b3\x7d[-.]?\\d\x7b4\x7d\\b"),
   ("date", "\\b\\d\x7b1,2\x7d/\\d\x7b1,2\x7d/\\d\x7b2,4\x7d\\b"),
   ("url", "https?://[^\\s]+")]

/-- `MetadataEnricher._extract_entities`: each pattern is run independently
    by the external regex engine `findall`; a nonempty match list is stored
    deduplicated — `list(set(matches))` loses order, so the stored value is
    the `Finset` of matches — and an empty one leaves the type absent. -/
def extract_entities (findall : String → String → List String) (text : String) :
    List (String × Finset String) :=
  entity_patterns.foldl
    (fun entities p =>
      let ms := findall p.2 text
      if ms.isEmpty then entities else entities ++ [(p.1, ms.toFinset)])
    []

/-- Lookup in the entities map (dict with unique keys, built in order). -/
def lookupEnt (es : List (String × Finset String)) (k : String) : Option (Finset String) :=
  (es.find? (fun p => p.1 == k)).map Prod.snd

end Enricher

namespace Cache

/-- The order `sorted(kwargs.items())` sorts by: Python tuple comparison,
    key first, then value. -/
def pairLe (a b : String × String) : Prop :=
  a.1 < b.1 ∨ (a.1 = b.1 ∧ a.2 ≤ b.2)

instance : DecidableRel pairLe := fun a b => by unfold pairLe; infer_instance

instance : IsTrans (String × String) pairLe where
  trans a b c hab hbc := by
    rcases hab with h1 | ⟨e1, l1⟩
    · rcases hbc with h2 | ⟨e2, l2⟩
      · exact Or.inl (h1.trans h2)
      · exact Or.inl (e2 ▸ h1)
    · rcases hbc with h2 | ⟨e2, l2⟩
      · exact Or.inl (e1 ▸ h2)
      · exact Or.inr ⟨e1.trans e2, l1.trans l2⟩

instance : IsTotal (String × String) pairLe where
  total a b := by
    rcases lt_trichotomy a.1 b.1 with h | h | h
    · exact Or.inl (Or.inl h)
    · rcases le_total a.2 b.2 with h2 | h2
      · exact Or.inl (Or.inr ⟨h, h2⟩)
      · exact Or.inr (Or.inr ⟨h.symm, h2⟩)
    · exact Or.inr (Or.inl h)

instance : IsAntisymm (String × String) pairLe where
  antisymm a b hab hba := by
    rcases hab with h1 | ⟨e1, l1⟩
    · rcases hba with h2 | ⟨e2, l2⟩
      · exact absurd h2 (lt_asymm h1)
      · exact absurd h1 (e2 ▸ lt_irrefl b.1)
    · rcases hba with h2 | ⟨e2, l2⟩
      · exact absurd h2 (e1 ▸ lt_irrefl b.1)
      · exact Prod.ext e1 (le_antisymm l1 l2)

/-- `sorted` on the keyword-argument items. -/
def sortPairs (l : List (String × String)) : List (String × String) :=
  List.insertionSort pairLe l

/-- Python tuple repr of the positional arguments (each argument stands for
    its textual representation). -/
def reprArgs (args : List String) : String :=
  "(" ++ String.intercalate ", " args ++ (if args.length = 1 then ",)" else ")")

/-- Python repr of one sorted `(key, value)` item. -/
def reprPair (p : String × String) : String :=
  "('" ++ p.1 ++ "', " ++ p.2 ++ ")"

/-- Python list repr of the sorted keyword items. -/
def reprSorted (l : List (String × String)) : String :=
  "[" ++ String.intercalate ", " (l.map reprPair) ++ "]"

/-- `CacheManager.generate_key`: format prefix, positional args and sorted
    keyword args, then hash; `md5hex` is the external digest. -/
def generate_key (md5hex : String → String) (pre : String) (args : List String)
    (kwargs : List (String × String)) : String :=
  md5hex (pre ++ ":" ++ reprArgs args ++ ":" ++ reprSorted (sortPairs kwargs))

/-- Behavior of the external redis client and the JSON codec during one call
    path; `Except.error` stands for a raised exception. -/
structure RedisOracle (V : Type) where
  from_url_ok : Bool
  ping_ok : Bool
  rget : String → Except Unit (Option String)
  rsetex : String → Nat → String → Except Unit Unit
  rdel : String → Except Unit Unit
  jloads : String → Except Unit V
  jdumps : V → Except Unit String

/-- `CacheManager` state: whether `redis_client` is set and the `enabled`
    flag, plus the configured default TTL. -/
structure CacheState where
  connected : Bool
  enabled : Bool
  ttl : Nat

/-- `CacheManager.__init__`. -/
def cache_init (enable_cache : Bool) (ttl : Nat) : CacheState :=
  ⟨false, enable_cache, ttl⟩

/-- `CacheManager.connect`: a failure of `from_url` or `ping` is caught and
    only disables the cache. -/
def cache_connect {V : Type} (o : RedisOracle V) (st : CacheState) : CacheState :=
  if ¬ st.enabled then st
  else if ¬ o.from_url_ok then { st with enabled := false }
  else if ¬ o.ping_ok then { st with connected := true, enabled := false }
  else { st with connected := true, enabled := true }

/-- `CacheManager.get`: every failure path inside the `try` collapses to
    `none`; nothing is raised to the caller. -/
def cache_get {V : Type} (o : RedisOracle V) (st : CacheState) (key : String) : Option V :=
  if ¬ st.enabled ∨ ¬ st.connected then none
  else
    match o.rget key with
    | Except.error _ => none
    | Except.ok none => none
    | Except.ok (some v) =>
      if v = "" then none
      else
        match o.jloads v with
        | Except.error _ => none
        | Except.ok x => some x

/-- `CacheManager.set`: `ttl = ttl or self.ttl`, then `setex`; every failure
    returns `false`. -/
def cache_set {V : Type} (o : RedisOracle V) (st : CacheState) (key : String)
    (value : V) (ttl? : Option Nat) : Bool :=
  if ¬ st.enabled ∨ ¬ st.connected then false
  else
    match o.jdumps value with
    | Except.error _ => false
    | Except.ok s =>
      let ttl := match ttl? with | none => st.ttl | some 0 => st.ttl | some t => t
      match o.rsetex key ttl s with
      | Except.error _ => false
      | Except.ok _ => true

/-- `CacheManager.delete`: every failure returns `false`. -/
def cache_delete {V : Type} (o : RedisOracle V) (st : CacheState) (key : String) : Bool :=
  if ¬ st.enabled ∨ ¬ st.connected then false
  else
    match o.rdel key with
    | Except.error _ => false
    | Except.ok _ => true

/-- The `cached` decorator's wrapper body: connect, derive the key, try the
    cache, on a miss run the wrapped function and store its result. The
    wrapped function `f` is the external pipeline stage. -/
def cached_call {V : Type} (o : RedisOracle V) (enable_cache : Bool) (cfg_ttl : Nat)
    (md5hex : String → String) (pre : String) (args : List String)
    (kwargs : List (String × String)) (ttl? : Option Nat) (f : Unit → V) : V :=
  let cache := cache_init enable_cache cfg_ttl
  let cache := cache_connect o cache
  let key := generate_key md5hex pre args kwargs
  match cache_get o cache key with
  | some cached_result => cached_result
  | none =>
    let result := f ()
    let _ := cache_set o cache key result ttl?
    result

end Cache

/-! Supporting lemmas. -/

namespace Validator

theorem grounding_foldl (A : Finset String) (docs : List String) (a b : Nat) :
    docs.foldl
      (fun (acc : Nat × Nat) doc =>
        (acc.1 + (A ∩ (wordTokens (pyLower doc)).toFinset).card, acc.2 + A.card))
      (a, b) =
    (a + (docs.map (fun d => (A ∩ (wordTokens (pyLower d)).toFinset).card)).sum,
     b + docs.length * A.card) := by
  induction docs generalizing a b with
  | nil => simp
  | cons d ds ih =>
    simp only [List.foldl_cons, ih, List.map_cons, List.sum_cons, List.length_cons]
    simp only [Prod.mk.injEq]
    constructor <;> ring

theorem check_grounding_eq_spec (answer : String) (docs : List String) :
    check_grounding answer docs = groundingSpec answer docs := by
  unfold check_grounding groundingSpec tokenSet
  rcases docs with _ | ⟨d, ds⟩
  · simp
  · simp only [List.isEmpty_cons, Bool.false_eq_true, if_false, false_or]
    rw [grounding_foldl]
    simp [Nat.zero_add]

theorem check_grounding_empty_answer (docs : List String) :
    check_grounding "" docs = 0 := by
  unfold check_grounding
  rcases docs with _ | ⟨d, ds⟩
  · simp
  · simp only [List.isEmpty_cons, Bool.false_eq_true, if_false]
    rw [grounding_foldl]
    have hA : (wordTokens (pyLower "")).toFinset.card = 0 := by decide
    simp [hA]

theorem validate_quality_eq (response : Response) (docs : List String) :
    (validate response docs).quality_score =
      calculate_quality_score (responseAnswer response)
        (check_grounding (responseAnswer response) docs) := by
  rfl

theorem validate_is_valid_true (response : Response) (docs : List String) :
    (validate response docs).is_valid = true := by
  unfold validate
  dsimp only
  split <;> split <;> split <;> split <;> rfl

theorem validate_low_grounding_warning (response : Response) (docs : List String)
    (h : check_grounding (responseAnswer response) docs < 1/2) :
    "Low grounding score" ∈ (validate response docs).warnings := by
  unfold validate
  dsimp only
  rw [if_pos h]
  split <;> split <;> split <;> simp

theorem validate_none_answer (docs : List String) :
    validate ⟨none⟩ docs =
      ⟨true, ["Answer too short", "Low grounding score"], 0, 0⟩ := by
  have h := check_grounding_empty_answer docs
  unfold validate
  dsimp only [responseAnswer, Option.getD]
  rw [h]
  decide

theorem quality_eq_spec (answer : String) (g : ℚ) :
    calculate_quality_score answer g = qualitySpec answer g := by
  unfold calculate_quality_score qualitySpec
  dsimp only
  split_ifs <;> congr 2 <;> ring

end Validator

namespace DocProc

theorem hupdate_foldl (bs : List (List Nat)) (c : HashCtx) :
    (bs.foldl hupdate c).buf = c.buf ++ bs.flatten := by
  induction bs generalizing c with
  | nil => simp
  | cons b bs ih => simp [hupdate, ih]

theorem blocksAux_flatten (l : List Nat) : ∀ (cur : List Nat) (k : Nat),
    (blocksAux l cur k).flatten = cur.reverse ++ l := by
  induction l with
  | nil =>
    intro cur k
    unfold blocksAux
    split
    · next h => simp [List.isEmpty_iff.mp h]
    · simp
  | cons b rest ih =>
    intro cur k
    match k with
    | 0 => simp [blocksAux, ih]
    | k + 1 => simp [blocksAux, ih]

theorem calculate_file_hash_eq (sha256hex : List Nat → String) (bytes : List Nat) :
    calculate_file_hash sha256hex bytes = sha256hex bytes := by
  unfold calculate_file_hash blocks4096
  rw [hupdate_foldl, blocksAux_flatten]
  rfl

theorem mlookup_append (a b : Metadata) (k : String) :
    mlookup (a ++ b) k = (mlookup b k).or (mlookup a k) := by
  unfold mlookup
  rw [List.reverse_append, List.find?_append]
  cases b.reverse.find? (fun p => p.1 == k) <;> simp

theorem mlookup_none (m : Metadata) (k : String) (h : ∀ p ∈ m, p.1 ≠ k) :
    mlookup m k = none := by
  unfold mlookup
  rw [List.find?_eq_none.mpr]
  · rfl
  · intro p hp
    simpa using h p (List.mem_reverse.mp hp)

theorem gen_lookup_index (f : FileInfo) (fh : String) (i total clen : Nat) (now : String) :
    mlookup (generatedMeta f fh i total clen now) "chunk_index" = some (MVal.n i) := rfl

theorem gen_lookup_total (f : FileInfo) (fh : String) (i total clen : Nat) (now : String) :
    mlookup (generatedMeta f fh i total clen now) "total_chunks" = some (MVal.n total) := rfl

theorem gen_lookup_hash (f : FileInfo) (fh : String) (i total clen : Nat) (now : String) :
    mlookup (generatedMeta f fh i total clen now) "file_hash" = some (MVal.s fh) := rfl

end DocProc

namespace Cache

theorem sortPairs_perm_eq (l1 l2 : List (String × String)) (h : l1.Perm l2) :
    sortPairs l1 = sortPairs l2 :=
  List.eq_of_perm_of_sorted
    (((List.perm_insertionSort pairLe l1).trans h).trans
      (List.perm_insertionSort pairLe l2).symm)
    (List.sorted_insertionSort pairLe l1)
    (List.sorted_insertionSort pairLe l2)

end Cache

/-! Claim theorems. -/

/-- C1: the grounding score follows the claimed overlap/total formula with
    `total` equal to the answer-token-set size times the number of chunks,
    zero on empty context or zero total; the worked example ("the cat sat"
    against "the cat sat on the mat") scores `1`; and any score below `0.5`
    puts the low-grounding warning in the validation result. -/
theorem C1_grounding_score :
    (∀ answer docs,
      Validator.check_grounding answer docs = Validator.groundingSpec answer docs) ∧
    Validator.check_grounding "the cat sat" ["the cat sat on the mat"] = 1 ∧
    (∀ response docs,
      Validator.check_grounding (Validator.responseAnswer response) docs < 1/2 →
      "Low grounding score" ∈ (Validator.validate response docs).warnings) :=
  ⟨Validator.check_grounding_eq_spec, by decide, Validator.validate_low_grounding_warning⟩

/-- Witness for C1: a concrete ungrounded answer scores below `0.5` and its
    validation result carries the low-grounding warning. -/
theorem C1_grounding_score_witness :
    "Low grounding score" ∈ (Validator.validate ⟨some "zebra"⟩ ["lion"]).warnings :=
  C1_grounding_score.2.2 ⟨some "zebra"⟩ ["lion"] (by decide)

/-- C3: the quality score returned by `validate` is exactly the grounding
    score plus the `[50, 500]` word-count bonus minus the short/long penalty,
    clamped to `[0, 1]` — a function of the answer and the grounding score
    alone, so the earlier length-check adjustments to the intermediate
    quality score have no effect on the returned value. -/
theorem C3_quality_score :
    (∀ answer g,
      Validator.calculate_quality_score answer g = Validator.qualitySpec answer g) ∧
    (∀ response docs,
      (Validator.validate response docs).quality_score =
        Validator.calculate_quality_score (Validator.responseAnswer response)
          (Validator.check_grounding (Validator.responseAnswer response) docs)) :=
  ⟨Validator.quality_eq_spec, Validator.validate_quality_eq⟩

/-- C10: a response map without an `"answer"` key validates as the empty
    answer — short-answer and low-grounding warnings, grounding and quality
    scores `0`, `is_valid` true — and every validation result whatsoever has
    `is_valid = true`. -/
theorem C10_missing_answer :
    (∀ docs, Validator.validate ⟨none⟩ docs =
       ⟨true, ["Answer too short", "Low grounding score"], 0, 0⟩) ∧
    (∀ response docs, (Validator.validate response docs).is_valid = true) :=
  ⟨Validator.validate_none_answer, Validator.validate_is_valid_true⟩

/-- C4: enriched chunks carry `chunk_index` equal to their position in the
    sequence, `total_chunks` equal to the chunk count, and a shared
    `file_hash` that is the digest of the whole source byte stream, provided
    the caller's custom metadata avoids those generated keys. -/
theorem C4_chunk_metadata (sha256hex : List Nat → String) (chunks : List DocProc.Chunk)
    (f : DocProc.FileInfo) (custom : DocProc.Metadata) (now : String)
    (hc : ∀ p ∈ custom,
      p.1 ∉ (["chunk_index", "total_chunks", "file_hash"] : List String)) :
    DocProc.calculate_file_hash sha256hex f.bytes = sha256hex f.bytes ∧
    (DocProc.enrich_metadata sha256hex chunks f custom now).length = chunks.length ∧
    (∀ i (h : i < chunks.length),
      DocProc.mlookup ((DocProc.enrich_metadata sha256hex chunks f custom now).get
          ⟨i, by simpa [DocProc.enrich_metadata] using h⟩).metadata "chunk_index" =
        some (DocProc.MVal.n i) ∧
      DocProc.mlookup ((DocProc.enrich_metadata sha256hex chunks f custom now).get
          ⟨i, by simpa [DocProc.enrich_metadata] using h⟩).metadata "total_chunks" =
        some (DocProc.MVal.n chunks.length) ∧
      DocProc.mlookup ((DocProc.enrich_metadata sha256hex chunks f custom now).get
          ⟨i, by simpa [DocProc.enrich_metadata] using h⟩).metadata "file_hash" =
        some (DocProc.MVal.s (sha256hex f.bytes))) := by
  refine ⟨DocProc.calculate_file_hash_eq sha256hex f.bytes, ?_, ?_⟩
  · simp [DocProc.enrich_metadata]
  · intro i h
    have hcust : ∀ k, k ∈ (["chunk_index", "total_chunks", "file_hash"] : List String) →
        DocProc.mlookup custom k = none := by
      intro k hk
      exact DocProc.mlookup_none custom k (fun p hp he => hc p hp (he ▸ hk))
    unfold DocProc.enrich_metadata
    dsimp only
    rw [List.get_mapIdx _ _ i h]
    refine ⟨?_, ?_, ?_⟩
    · rw [DocProc.mlookup_append, DocProc.mlookup_append,
        hcust "chunk_index" (by decide), DocProc.gen_lookup_index]
      rfl
    · rw [DocProc.mlookup_append, DocProc.mlookup_append,
        hcust "total_chunks" (by decide), DocProc.gen_lookup_total]
      rfl
    · rw [DocProc.mlookup_append, DocProc.mlookup_append,
        hcust "file_hash" (by decide), DocProc.gen_lookup_hash,
        DocProc.calculate_file_hash_eq]
      rfl

/-- Witness for C4: on a concrete two-chunk document with disjoint custom
    metadata, the second chunk's `chunk_index` is `1`. -/
theorem C4_chunk_metadata_witness :
    DocProc.mlookup (((DocProc.enrich_metadata (fun _ => "h")
        [⟨"ab", []⟩, ⟨"c", []⟩] ⟨"/d/x.txt", "x.txt", ".txt", true, 2, [97, 98]⟩
        [("team", DocProc.MVal.s "sales")] "t").get ⟨1, by decide⟩).metadata) "chunk_index" =
      some (DocProc.MVal.n 1) :=
  ((C4_chunk_metadata (fun _ => "h") [⟨"ab", []⟩, ⟨"c", []⟩]
      ⟨"/d/x.txt", "x.txt", ".txt", true, 2, [97, 98]⟩
      [("team", DocProc.MVal.s "sales")] "t" (by decide)).2.2 1 (by decide)).1

/-- C5: `process_document` fails exactly when the file is missing, the
    extension is outside the supported allow-list, the size exceeds the
    configured maximum, or no loader is mapped for the extension; in
    particular a `.pptx` file always fails. -/
theorem C5_error_conditions :
    (∀ load split sha256hex f custom now,
      DocProc.isErr (DocProc.process_document load split sha256hex f custom now) = true ↔
        (f.on_disk = false ∨ f.suffix ∉ DocProc.SUPPORTED_FORMATS ∨
         ((f.size_bytes : ℚ) / (1024 * 1024)) > (DocProc.MAX_DOCUMENT_SIZE_MB : ℚ) ∨
         f.suffix ∉ DocProc.loader_suffixes)) ∧
    (∀ load split sha256hex f custom now, f.suffix = ".pptx" →
      DocProc.isErr (DocProc.process_document load split sha256hex f custom now) = true) := by
  have main : ∀ load split sha256hex f custom now,
      DocProc.isErr (DocProc.process_document load split sha256hex f custom now) = true ↔
        (f.on_disk = false ∨ f.suffix ∉ DocProc.SUPPORTED_FORMATS ∨
         ((f.size_bytes : ℚ) / (1024 * 1024)) > (DocProc.MAX_DOCUMENT_SIZE_MB : ℚ) ∨
         f.suffix ∉ DocProc.loader_suffixes) := by
    intro load split sha256hex f custom now
    unfold DocProc.process_document DocProc.validate_file DocProc.load_document DocProc.isErr
    split_ifs <;> simp_all
  refine ⟨main, ?_⟩
  intro load split sha256hex f custom now hsuffix
  exact (main load split sha256hex f custom now).mpr
    (Or.inr (Or.inr (Or.inr (by rw [hsuffix]; decide))))

/-- Witness for C5: a concrete existing, small `.pptx` file is rejected. -/
theorem C5_error_conditions_witness :
    DocProc.isErr (DocProc.process_document (fun _ => []) id (fun _ => "h")
      ⟨"/docs/deck.pptx", "deck.pptx", ".pptx", true, 100, [1, 2, 3]⟩ [] "t") = true :=
  C5_error_conditions.2 (fun _ => []) id (fun _ => "h")
    ⟨"/docs/deck.pptx", "deck.pptx", ".pptx", true, 100, [1, 2, 3]⟩ [] "t" rfl

/-- C2 (evidence of the source defect): `DocumentProcessor.__init__` passes
    the misspelled keyword `chunnk_overlap` to the text splitter — a
    parameter name the splitter does not have — and never passes
    `chunk_overlap`, so the configured overlap cannot reach the splitting
    algorithm and the claimed exact-overlap guarantee cannot hold. -/
theorem C2_overlap_kwarg :
    "chunnk_overlap" ∈ DocProc.splitter_init_kwargs ∧
    "chunnk_overlap" ∉ DocProc.splitter_param_names ∧
    "chunk_overlap" ∉ DocProc.splitter_init_kwargs := by decide

/-- C7: content-type classification is total, single-label,
    first-match-wins with priority code > academic > meeting_notes >
    policy > general over the lower-cased text; text containing both
    `"def "` and `"policy"` classifies as code. -/
theorem C7_content_type :
    (∀ t, Enricher.mentions_code (Validator.pyLower t) = true →
       Enricher.identify_content_type t = "code") ∧
    (∀ t, Enricher.mentions_code (Validator.pyLower t) = false →
       Enricher.mentions_academic (Validator.pyLower t) = true →
       Enricher.identify_content_type t = "academic") ∧
    (∀ t, Enricher.mentions_code (Validator.pyLower t) = false →
       Enricher.mentions_academic (Validator.pyLower t) = false →
       Enricher.mentions_meeting (Validator.pyLower t) = true →
       Enricher.identify_content_type t = "meeting_notes") ∧
    (∀ t, Enricher.mentions_code (Validator.pyLower t) = false →
       Enricher.mentions_academic (Validator.pyLower t) = false →
       Enricher.mentions_meeting (Validator.pyLower t) = false →
       Enricher.mentions_policy (Validator.pyLower t) = true →
       Enricher.identify_content_type t = "policy") ∧
    (∀ t, Enricher.mentions_code (Validator.pyLower t) = false →
       Enricher.mentions_academic (Validator.pyLower t) = false →
       Enricher.mentions_meeting (Validator.pyLower t) = false →
       Enricher.mentions_policy (Validator.pyLower t) = false →
       Enricher.identify_content_type t = "general") ∧
    Enricher.identify_content_type "def apply(): # policy" = "code" ∧
    (∀ t, Enricher.identify_content_type t ∈
       (["code", "academic", "meeting_notes", "policy", "general"] : List String)) := by
  refine ⟨?_, ?_, ?_, ?_, ?_, by decide, ?_⟩ <;>
    intro t <;> unfold Enricher.identify_content_type <;> dsimp only
  · intro h1; simp [h1]
  · intro h1 h2; simp [h1, h2]
  · intro h1 h2 h3; simp [h1, h2, h3]
  · intro h1 h2 h3 h4; simp [h1, h2, h3, h4]
  · intro h1 h2 h3 h4; simp [h1, h2, h3, h4]
  · split_ifs <;> simp

/-- Witness for C7: a text with an academic keyword and no code keyword
    classifies as academic. -/
theorem C7_content_type_witness :
    Enricher.identify_content_type "abstract and results" = "academic" :=
  C7_content_type.2.1 "abstract and results" (by decide) (by decide)

/-- C8: each of the four entity patterns is applied independently by the
    regex engine; a type with matches is stored as the deduplicated set of
    its matches, and a type with no matches is absent from the map. -/
theorem C8_entities (findall : String → String → List String) (text : String) :
    ∀ ty pat, (ty, pat) ∈ Enricher.entity_patterns →
      Enricher.lookupEnt (Enricher.extract_entities findall text) ty =
        (if findall pat text = [] then none
         else some (findall pat text).toFinset) := by
  intro ty pat hmem
  unfold Enricher.extract_entities
  simp only [Enricher.entity_patterns, List.mem_cons, List.mem_singleton] at hmem
  rcases hmem with h | h | h | h <;> rw [Prod.mk.injEq] at h <;>
    obtain ⟨rfl, rfl⟩ := h <;>
    simp only [Enricher.entity_patterns, List.foldl_cons, List.foldl_nil] <;>
    split_ifs <;>
    simp_all [Enricher.lookupEnt, List.isEmpty_iff]

/-- Witness for C8: a regex engine returning a duplicated phone match
    yields the deduplicated singleton set under the `"phone"` key. -/
theorem C8_entities_witness :
    Enricher.lookupEnt
      (Enricher.extract_entities (fun _ _ => ["555-123-4567", "555-123-4567"])
        "call 555-123-4567") "phone" =
      some ({"555-123-4567"} : Finset String) := by
  have h := C8_entities (fun _ _ => ["555-123-4567", "555-123-4567"]) "call 555-123-4567"
    "phone" "\\b\\d\x7b3\x7d[-.]?\\d\x7b3\x7d[-.]?\\d\x7b4\x7d\\b" (by decide)
  rw [h]
  decide

/-- C6: `generate_key` is deterministic and independent of keyword-argument
    order: permuting the keyword items leaves the derived key unchanged. -/
theorem C6_key_order (md5hex : String → String) (pre : String) (args : List String)
    (k1 k2 : List (String × String)) (h : k1.Perm k2) :
    Cache.generate_key md5hex pre args k1 = Cache.generate_key md5hex pre args k2 := by
  unfold Cache.generate_key
  rw [Cache.sortPairs_perm_eq k1 k2 h]

/-- Witness for C6: `(query="foo", top_k=5)` and `(top_k=5, query="foo")`
    derive the same key. -/
theorem C6_key_order_witness :
    Cache.generate_key (fun s => s) "query" [] [("query", "foo"), ("top_k", "5")] =
      Cache.generate_key (fun s => s) "query" [] [("top_k", "5"), ("query", "foo")] :=
  C6_key_order (fun s => s) "query" [] _ _ (List.Perm.swap _ _ _)

/-- C9: cache operations swallow every store failure — `get` yields `none`
    and `set`/`delete` yield `false` when the cache is disabled, unconnected
    or the underlying store call fails; a failed connection disables the
    cache for the call path, and the memoizing wrapper then returns the
    wrapped function's own result (pass-through degrade). -/
theorem C9_cache_degrade :
    (∀ (V : Type) (o : Cache.RedisOracle V) st k,
      st.enabled = false ∨ st.connected = false →
      Cache.cache_get o st k = none ∧
      (∀ v t, Cache.cache_set o st k v t = false) ∧
      Cache.cache_delete o st k = false) ∧
    (∀ (V : Type) (o : Cache.RedisOracle V) st k,
      o.rget k = Except.error () → Cache.cache_get o st k = none) ∧
    (∀ (V : Type) (o : Cache.RedisOracle V) st k v t,
      (∀ tt s, o.rsetex k tt s = Except.error ()) → Cache.cache_set o st k v t = false) ∧
    (∀ (V : Type) (o : Cache.RedisOracle V) st k,
      o.rdel k = Except.error () → Cache.cache_delete o st k = false) ∧
    (∀ (V : Type) (o : Cache.RedisOracle V) st,
      o.ping_ok = false → (Cache.cache_connect o st).enabled = false) ∧
    (∀ (V : Type) (o : Cache.RedisOracle V) enable_cache cfg_ttl md5hex pre args kwargs ttl? f,
      o.ping_ok = false ∨ o.from_url_ok = false ∨ enable_cache = false →
      Cache.cached_call o enable_cache cfg_ttl md5hex pre args kwargs ttl? f = f ()) := by
  refine ⟨?_, ?_, ?_, ?_, ?_, ?_⟩
  · intro V o st k h
    rcases h with h | h <;>
      exact ⟨by simp [Cache.cache_get, h], fun v t => by simp [Cache.cache_set, h],
        by simp [Cache.cache_delete, h]⟩
  · intro V o st k h
    unfold Cache.cache_get
    split_ifs
    · rfl
    · rw [h]
  · intro V o st k v t h
    unfold Cache.cache_set
    split_ifs
    · rfl
    · cases hd : o.jdumps v with
      | error e => rfl
      | ok s => dsimp only; rw [h]
  · intro V o st k h
    unfold Cache.cache_delete
    split_ifs
    · rfl
    · rw [h]
  · intro V o st h
    unfold Cache.cache_connect
    split_ifs <;> simp_all
  · intro V o enable_cache cfg_ttl md5hex pre args kwargs ttl? f h
    rcases h with h | h | h <;>
      simp [Cache.cached_call, Cache.cache_connect, Cache.cache_init, Cache.cache_get, h] <;>
      split_ifs <;> simp_all

/-- Witness for C9: with a store whose every operation fails, the memoizing
    wrapper still returns the wrapped function's result. -/
theorem C9_cache_degrade_witness :
    Cache.cached_call (V := Nat)
      ⟨false, false, fun _ => Except.error (), fun _ _ _ => Except.error (),
       fun _ => Except.error (), fun _ => Except.error (), fun _ => Except.error ()⟩
      true 3600 (fun s => s) "query" [] [] none (fun _ => 42) = 42 :=
  C9_cache_degrade.2.2.2.2.2 Nat
    ⟨false, false, fun _ => Except.error (), fun _ _ _ => Except.error (),
     fun _ => Except.error (), fun _ => Except.error (), fun _ => Except.error ()⟩
    true 3600 (fun s => s) "query" [] [] none (fun _ => 42) (Or.inl rfl)
